import Mathlib

/-
  Verification development for the BimaBot insurance claim audit system.

  The data model follows src/src/types/types.ts.  The presentation-tier
  computations (flag grouping, eligibility block, charge-level deductions,
  estimated payable amount) follow the audit results component in
  src/src/app/components/AuditBillPage.tsx.  The status-polling loop follows
  ProcessingPage in src/src/app/components/Navigation.tsx.  The client-state
  reset follows finishAudit in the App component.  The OCR text extraction
  follows bima-bot-backend/app/services/ocr/ocr_service_aws.py.backup.

  The rule-evaluation engine, financial aggregator, dispute-letter composer
  and the session coordinator live in backend code that is not part of the
  provided sources; those definitions are modelled from the specification
  and are marked as such in their doc comments.
-/

namespace BimaBot

/-- Audit session status, from the AuditStatus union type in types.ts. -/
inductive AuditStatus
  | created
  | processing
  | completed
  | failed
deriving DecidableEq, Repr

/-- Flag type, from the FlagType union type in types.ts. -/
inductive FlagType
  | CONSUMABLES
  | ROOM_RENT_EXCESS
  | NON_MEDICAL
  | PRE_EXISTING
  | WAITING_PERIOD
  | UNCOVERED_PROCEDURE
  | POLICY_LIMIT_EXCEEDED
  | REGISTRATION_FEE
  | MISC
deriving DecidableEq, Repr

/-- Flag severity, from the FlagSeverity union type in types.ts. -/
inductive FlagSeverity
  | info
  | warning
  | error
deriving DecidableEq, Repr

/-- Flag scope, from the FlagScope union type in types.ts. -/
inductive FlagScope
  | eligibility
  | charge
  | informational
deriving DecidableEq, Repr

/-- An audit flag, from the AuditFlag interface in types.ts.  Optional
fields are Options; amounts are integers (whole rupee values). -/
structure AuditFlag where
  flag_type : FlagType
  severity : FlagSeverity
  flag_scope : FlagScope
  line_item_id : Option String
  amount_affected : Option Int
  reason : String
deriving DecidableEq, Repr

/-- The audit result payload, from the AuditResult interface in types.ts
(the fields the presentation tier reads). -/
structure AuditResult where
  flags : List AuditFlag
  total_billed : Int
  amount_under_review : Int
  fully_covered_amount : Int
  dispute_letter_content : String
deriving DecidableEq, Repr

/-! ### Presentation-tier computations, from AuditBillPage.tsx -/

/-- flags.filter(f => f.flag_scope === 'eligibility') -/
def eligibilityFlags (flags : List AuditFlag) : List AuditFlag :=
  flags.filter (fun f => decide (f.flag_scope = FlagScope.eligibility))

/-- flags.filter(f => f.flag_scope === 'charge') -/
def chargeFlags (flags : List AuditFlag) : List AuditFlag :=
  flags.filter (fun f => decide (f.flag_scope = FlagScope.charge))

/-- flags.filter(f => f.flag_scope === 'informational') -/
def infoFlags (flags : List AuditFlag) : List AuditFlag :=
  flags.filter (fun f => decide (f.flag_scope = FlagScope.informational))

/-- eligibilityFlags.some(f => f.severity === 'error') -/
def hasEligibilityBlock (flags : List AuditFlag) : Bool :=
  (eligibilityFlags flags).any (fun f => decide (f.severity = FlagSeverity.error))

/-- JavaScript (flag.amount_affected || 0): a missing amount contributes 0
(and 0, which is falsy, also yields 0). -/
def jsOr0 : Option Int → Int
  | some v => v
  | none => 0

/-- Left fold adding jsOr0 of each amount_affected, the shape of the
Array.reduce in the source. -/
def sumAffected (l : List AuditFlag) : Int :=
  l.foldl (fun s f => s + jsOr0 f.amount_affected) 0

/-- chargeFlags.reduce((sum, flag) => sum + (flag.amount_affected || 0), 0) -/
def chargeLevelDeductions (flags : List AuditFlag) : Int :=
  sumAffected (chargeFlags flags)

/-- The amount shown in the Under Review / Charge Deductions summary card:
hasEligibilityBlock ? total_billed : chargeLevelDeductions. -/
def displayedUnderReview (r : AuditResult) : Int :=
  if hasEligibilityBlock r.flags then r.total_billed else chargeLevelDeductions r.flags

/-- The Estimated Payable Amount rendered in the deductions footer:
total_billed - chargeLevelDeductions. -/
def estimatedPayable (r : AuditResult) : Int :=
  r.total_billed - chargeLevelDeductions r.flags

/-! ### Rule evaluation engine, modelled from the spec (backend absent from src/) -/

/-- Modelled from the spec: line-item category enumeration of section 3. -/
inductive Category
  | room_rent
  | surgery
  | consumables
  | registration_fee
  | medicines
  | lab
  | service_charge
  | other
deriving DecidableEq, Repr

/-- Modelled from the spec: a bill LineItem with unique identifier, label,
category and non-negative amount (section 3). -/
structure LineItem where
  id : String
  label : String
  category : Category
  amount : Int
deriving DecidableEq, Repr

/-- Modelled from the spec: a Bill as an ordered sequence of LineItems;
stay_days abstracts the admission/discharge date span used by the
room-rent-per-day rule. -/
structure Bill where
  line_items : List LineItem
  stay_days : Int
deriving DecidableEq, Repr

/-- Modelled from the spec: the PolicyTerm set of section 3.  The three
eligibility conditions of section 4.1 step 1 are abstracted as booleans
established during extraction. -/
structure Policy where
  sum_insured : Int
  room_rent_limit : Option Int
  pre_existing_exclusion_unmet : Bool
  waiting_period_unmet : Bool
  procedure_uncovered : Bool
  excluded_categories : List Category
deriving DecidableEq, Repr

/-- total_billed: sum of all LineItem amounts (spec section 4.2). -/
def billTotal (b : Bill) : Int :=
  b.line_items.foldl (fun s it => s + it.amount) 0

/-- Numeric severity order used for the highest-severity-wins tie-break. -/
def sevRank : FlagSeverity → Nat
  | FlagSeverity.info => 0
  | FlagSeverity.warning => 1
  | FlagSeverity.error => 2

/-- Modelled from the spec: the regulator-disallowed category set of
section 4.1 step 2 (consumables, registration/service fees). -/
def regulatorDisallowed : Category → Bool
  | Category.consumables => true
  | Category.registration_fee => true
  | Category.service_charge => true
  | _ => false

/-- Flag type attached to a regulator-disallowed category. -/
def disallowedFlagType : Category → FlagType
  | Category.consumables => FlagType.CONSUMABLES
  | Category.registration_fee => FlagType.REGISTRATION_FEE
  | _ => FlagType.NON_MEDICAL

/-- Modelled from the spec: eligibility rules of section 4.1 step 1, in
rule-execution order; each emits an error-severity eligibility flag with
no LineItem reference. -/
def eligibilityRules (p : Policy) : List AuditFlag :=
  (if p.pre_existing_exclusion_unmet then
     [⟨FlagType.PRE_EXISTING, FlagSeverity.error, FlagScope.eligibility, none, none,
       "Pre-existing condition exclusion active with unmet waiting period"⟩]
   else []) ++
  (if p.waiting_period_unmet then
     [⟨FlagType.WAITING_PERIOD, FlagSeverity.error, FlagScope.eligibility, none, none,
       "Waiting period below policy minimum at time of admission"⟩]
   else []) ++
  (if p.procedure_uncovered then
     [⟨FlagType.UNCOVERED_PROCEDURE, FlagSeverity.error, FlagScope.eligibility, none, none,
       "Procedure category absent from the covered list"⟩]
   else [])

/-- Modelled from the spec: the charge-level rule candidates for one
LineItem, in rule-execution order (section 4.1 step 2): regulator-disallowed
category, room-rent per-day excess, policy exclusion list. -/
def chargeCandidates (p : Policy) (days : Int) (it : LineItem) : List AuditFlag :=
  (if regulatorDisallowed it.category then
     [⟨disallowedFlagType it.category, FlagSeverity.warning, FlagScope.charge,
       some it.id, some it.amount,
       "Category is not separately payable under IRDAI guidelines"⟩]
   else []) ++
  (match p.room_rent_limit with
   | some cap =>
     if it.category = Category.room_rent ∧ it.amount > cap * days then
       [⟨FlagType.ROOM_RENT_EXCESS, FlagSeverity.warning, FlagScope.charge,
         some it.id, some (it.amount - cap * days),
         "Room rent exceeds the per-day cap of the policy"⟩]
     else []
   | none => []) ++
  (if it.category ∈ p.excluded_categories then
     [⟨FlagType.POLICY_LIMIT_EXCEEDED, FlagSeverity.error, FlagScope.charge,
       some it.id, some it.amount,
       "Category is in the explicit exclusion list of the policy"⟩]
   else [])

/-- Modelled from the spec: keep only the highest-severity candidate, ties
broken by rule-execution order (the earlier candidate wins a tie). -/
def pickBest : List AuditFlag → Option AuditFlag
  | [] => none
  | f :: fs =>
    match pickBest fs with
    | none => some f
    | some g => if sevRank f.severity < sevRank g.severity then some g else some f

/-- Modelled from the spec: at most one charge-scope flag per LineItem. -/
def bestChargeFlag (p : Policy) (days : Int) (it : LineItem) : Option AuditFlag :=
  pickBest (chargeCandidates p days it)

/-- Modelled from the spec: charge-level flags in the bill line-item order. -/
def chargeRuleFlags (p : Policy) (b : Bill) : List AuditFlag :=
  b.line_items.filterMap (bestChargeFlag p b.stay_days)

/-- Modelled from the spec: section 4.1 step 3 names no concrete
informational rule, so none is emitted. -/
def informationalRules (_b : Bill) (_p : Policy) : List AuditFlag :=
  []

/-- Modelled from the spec: Evaluate(bill, policy), flags emitted in
rule-execution order: eligibility, then charge (in line-item order),
then informational (section 4.1). -/
def evaluate (b : Bill) (p : Policy) : List AuditFlag :=
  eligibilityRules p ++ chargeRuleFlags p b ++ informationalRules b p

/-! ### Financial aggregator, modelled from the spec (backend absent from src/) -/

/-- The financial summary triple of spec section 4.2. -/
structure Summary where
  total_billed : Int
  amount_under_review : Int
  fully_covered_amount : Int
deriving DecidableEq, Repr

/-- Modelled from the spec: sum of amount_affected over all charge-scope
flags with severity in the warning/error set (section 4.2). -/
def warnErrChargeSum (flags : List AuditFlag) : Int :=
  sumAffected ((chargeFlags flags).filter
    (fun f => decide (f.severity = FlagSeverity.warning ∨ f.severity = FlagSeverity.error)))

/-- Modelled from the spec: whether any flag has scope eligibility and
severity error (the blocking condition of section 4.2). -/
def anyEligError (flags : List AuditFlag) : Bool :=
  flags.any (fun f =>
    decide (f.flag_scope = FlagScope.eligibility ∧ f.severity = FlagSeverity.error))

/-- Modelled from the spec: Aggregate(bill, flags) of section 4.2.  A
negative fully covered amount fails fast with an AggregationError. -/
def aggregate (b : Bill) (flags : List AuditFlag) : Except String Summary :=
  let total := billTotal b
  if anyEligError flags then
    Except.ok ⟨total, total, 0⟩
  else
    let review := warnErrChargeSum flags
    let covered := total - review
    if covered < 0 then Except.error "AggregationError: negative fully covered amount"
    else Except.ok ⟨total, review, covered⟩

/-! ### Audit session coordinator, modelled from the spec (backend absent from src/) -/

/-- Modelled from the spec: the AuditSession record owned by the Session
Repository (section 3), with the bookkeeping the coordinator claims need
(evaluation-run and persisted-result counters). -/
structure CoordState where
  status : AuditStatus
  bill_uploaded : Bool
  policy_uploaded : Bool
  eval_runs : Nat
  persist_count : Nat
  bill : Option Bill
  policy : Option Policy
  flags : List AuditFlag
  summary : Option Summary
  letter : Option String
  fail_reason : Option String
deriving Repr

/-- Modelled from the spec: the actions a session can undergo.  procSucceed
carries the Bill and Policy data obtained from the external collaborators;
procFail carries the unrecoverable failure reason. -/
inductive CoordAction
  | attachBill
  | attachPolicy
  | complete
  | procSucceed (b : Bill) (p : Policy)
  | procFail (reason : String)

/-- Modelled from the spec: Compose(bill, policy, flags), a pure
deterministic letter renderer (section 4.4). -/
def composeLetter (b : Bill) (_p : Policy) (flags : List AuditFlag) : String :=
  "Request for reconsideration. Findings: " ++ toString flags.length ++
    ". Total billed: " ++ toString (billTotal b) ++ "."

/-- Modelled from the spec: the session state machine of section 4.3.
Document references may be attached while created; complete is accepted
once from created with both documents attached and is a no-op from any
other status; processing resolves to completed (all result fields
populated atomically) or failed (reason persisted, no flags exposed);
terminal states admit no transition. -/
def step (s : CoordState) : CoordAction → CoordState
  | CoordAction.attachBill =>
    if s.status = AuditStatus.created then { s with bill_uploaded := true } else s
  | CoordAction.attachPolicy =>
    if s.status = AuditStatus.created then { s with policy_uploaded := true } else s
  | CoordAction.complete =>
    if s.status = AuditStatus.created then
      if s.bill_uploaded && s.policy_uploaded then
        { s with status := AuditStatus.processing, eval_runs := s.eval_runs + 1 }
      else s
    else s
  | CoordAction.procSucceed b p =>
    if s.status = AuditStatus.processing then
      match aggregate b (evaluate b p) with
      | Except.ok sm =>
        { s with status := AuditStatus.completed, bill := some b, policy := some p,
                 flags := evaluate b p, summary := some sm,
                 letter := some (composeLetter b p (evaluate b p)),
                 persist_count := s.persist_count + 1 }
      | Except.error e =>
        { s with status := AuditStatus.failed, fail_reason := some e }
    else s
  | CoordAction.procFail r =>
    if s.status = AuditStatus.processing then
      { s with status := AuditStatus.failed, fail_reason := some r }
    else s

/-- Modelled from the spec: a freshly created session (empty Bill/Policy,
status created). -/
def initialSession : CoordState :=
  ⟨AuditStatus.created, false, false, 0, 0, none, none, [], none, none, none⟩

/-- Modelled from the spec: the structured non-snapshot responses of the
result query (section 6). -/
inductive ResultError
  | notReady
  | failedWithReason (r : String)
  | internalError
deriving DecidableEq, Repr

/-- Modelled from the spec: the full AuditSession snapshot returned on a
completed session; every component is mandatory, so a snapshot can never
be partially populated. -/
structure Snapshot where
  bill : Bill
  policy : Policy
  flags : List AuditFlag
  summary : Summary
  dispute_letter : String
deriving Repr

/-- Modelled from the spec: the result query of section 6 - the full
snapshot when completed, a structured not-ready or failed-with-reason
response otherwise. -/
def getResult (s : CoordState) : Except ResultError Snapshot :=
  match s.status with
  | AuditStatus.completed =>
    match s.bill, s.policy, s.summary, s.letter with
    | some b, some p, some sm, some l => Except.ok ⟨b, p, s.flags, sm, l⟩
    | _, _, _, _ => Except.error ResultError.internalError
  | AuditStatus.failed =>
    Except.error (ResultError.failedWithReason (s.fail_reason.getD ""))
  | _ => Except.error ResultError.notReady

/-- Session well-formedness: a completed session has its bill, policy,
summary and letter populated (the atomic-population guarantee of spec
section 4.3). -/
def WF (s : CoordState) : Prop :=
  s.status = AuditStatus.completed →
    s.bill.isSome ∧ s.policy.isSome ∧ s.summary.isSome ∧ s.letter.isSome

/-! ### OCR text extraction, from ocr_service_aws.py.backup -/

/-- Outcome of the underlying extract_text_from_s3_file collaborator call:
a text (possibly empty) or one of the exception classes caught by the
source function. -/
inductive ExtractionOutcome
  | success (text : String)
  | awsServiceError (msg : String)
  | fileNotFound
  | otherFailure (msg : String)
deriving DecidableEq, Repr

/-- extract_text_from_document from ocr_service_aws.py.backup: returns the
extracted text as-is (empty text is a valid result) and raises RuntimeError
exactly when the underlying processing fails. -/
def extract_text_from_document (file_path : String) (s3_key : String)
    (outcome : ExtractionOutcome) : Except String String :=
  match outcome with
  | ExtractionOutcome.success t => Except.ok t
  | ExtractionOutcome.awsServiceError e =>
    Except.error ("AWS Textract failed for " ++ s3_key ++ ": " ++ e)
  | ExtractionOutcome.fileNotFound =>
    Except.error ("Document file not found: " ++ file_path)
  | ExtractionOutcome.otherFailure e =>
    Except.error ("Failed to process document " ++ file_path ++ ": " ++ e)

/-- Modelled from the spec: the Coordinator ingestion treats empty
extracted text as a structured no-data-found condition instead of
crashing (section 6, extraction service contract). -/
def ingestExtractedText (t : String) : Except String String :=
  if t = "" then Except.error "no data found" else Except.ok t

/-! ### Status polling loop, from ProcessingPage in Navigation.tsx -/

/-- The ProcessingPage component state: currentStep, error, and whether
the 2-second poll interval is still installed. -/
structure PollState where
  currentStep : Nat
  error : Option String
  intervalActive : Bool
deriving DecidableEq, Repr

/-- One poll round either resolves with a status or rejects. -/
inductive PollEvent
  | statusOk (st : AuditStatus)
  | requestFailed
deriving DecidableEq, Repr

/-- The three progress step labels of ProcessingPage. -/
def stepsCount : Nat := 3

/-- The fixed polling interval of ProcessingPage, in milliseconds. -/
def pollIntervalMs : Nat := 2000

/-- One tick of the setInterval callback in ProcessingPage: a rejected
status request is caught and changes nothing (polling continues);
processing advances currentStep up to the last label; completed sets the
final step and clears the interval; failed clears the interval and sets
the error message; any other status changes nothing. -/
def pollTick (ps : PollState) : PollEvent → PollState
  | PollEvent.requestFailed => ps
  | PollEvent.statusOk st =>
    match st with
    | AuditStatus.processing =>
      { ps with currentStep := min (ps.currentStep + 1) (stepsCount - 1) }
    | AuditStatus.completed =>
      { ps with currentStep := stepsCount, intervalActive := false }
    | AuditStatus.failed =>
      { ps with intervalActive := false,
                error := some "Audit processing failed. Please try again." }
    | AuditStatus.created => ps

/-- The effect cleanup on unmount: clearInterval. -/
def unmountCleanup (ps : PollState) : PollState :=
  { ps with intervalActive := false }

/-! ### Client persisted state, from the App component (finishAudit) -/

/-- localStorage key bimabot_audit_id. -/
def STORAGE_KEYS_AUDIT_ID : String := "bimabot_audit_id"

/-- localStorage key bimabot_audit_result. -/
def STORAGE_KEYS_AUDIT_RESULT : String := "bimabot_audit_result"

/-- localStorage key bimabot_current_page. -/
def STORAGE_KEYS_CURRENT_PAGE : String := "bimabot_current_page"

/-- The App component state relevant to finishAudit. -/
structure AppState where
  currentPage : String
  isAuditMode : Bool
  billFile : Option String
  policyFile : Option String
  isSample : Bool
  auditId : Option String
  auditResult : Option AuditResult

/-- localStorage.removeItem. -/
def removeItem (store : String → Option String) (key : String) :
    String → Option String :=
  fun k => if k = key then none else store k

/-- localStorage.setItem. -/
def setItem (store : String → Option String) (key value : String) :
    String → Option String :=
  fun k => if k = key then some value else store k

/-- JSON.stringify stand-in for the saved audit result. -/
def encodeAuditResult (r : AuditResult) : String :=
  toString (repr r)

/-- The three save useEffects of the App component: save auditId when
present, save auditResult when present, save currentPage when in audit
mode. -/
def persistAuditEffects (st : AppState) (store : String → Option String) :
    String → Option String :=
  let s1 := match st.auditId with
    | some v => setItem store STORAGE_KEYS_AUDIT_ID v
    | none => store
  let s2 := match st.auditResult with
    | some r => setItem s1 STORAGE_KEYS_AUDIT_RESULT (encodeAuditResult r)
    | none => s1
  if st.isAuditMode then setItem s2 STORAGE_KEYS_CURRENT_PAGE st.currentPage else s2

/-- finishAudit from the App component: leaves audit mode, resets the
audit data, clears auditId and auditResult, removes the three localStorage
keys, and navigates home. -/
def finishAudit (_st : AppState) (store : String → Option String) :
    AppState × (String → Option String) :=
  (⟨"home", false, none, none, false, none, none⟩,
   removeItem (removeItem (removeItem store STORAGE_KEYS_AUDIT_ID)
     STORAGE_KEYS_AUDIT_RESULT) STORAGE_KEYS_CURRENT_PAGE)

/-! ### Scenario data, from SampleBillModal in Navigation.tsx -/

/-- The sample bill line items of SampleBillModal (amounts in rupees);
Anaesthesia and Doctor Consultation fall in the catch-all category. -/
def scenarioAItems : List LineItem :=
  [⟨"li-room", "Room Rent (3 days)", Category.room_rent, 24000⟩,
   ⟨"li-surgery", "Surgery Charges", Category.surgery, 45000⟩,
   ⟨"li-anaesthesia", "Anaesthesia", Category.other, 12000⟩,
   ⟨"li-consult", "Doctor Consultation", Category.other, 8000⟩,
   ⟨"li-medicines", "Medicines", Category.medicines, 15000⟩,
   ⟨"li-consumables", "Consumables", Category.consumables, 8500⟩,
   ⟨"li-lab", "Lab Tests", Category.lab, 6500⟩,
   ⟨"li-service", "Service Charges", Category.service_charge, 4000⟩]

/-- The sample bill: admission 15-Jan to discharge 18-Jan, a 3-day stay. -/
def scenarioABill : Bill := ⟨scenarioAItems, 3⟩

/-- The sample policy extract: sum insured 5,00,000; room rent capped at
8,000 per day; no eligibility issues; no excluded categories. -/
def scenarioAPolicy : Policy := ⟨500000, some 8000, false, false, false, []⟩

/-! ### Helper lemmas -/

theorem anyEligError_eq_hasEligibilityBlock (flags : List AuditFlag) :
    anyEligError flags = hasEligibilityBlock flags := by
  induction flags with
  | nil => rfl
  | cons f fs ih =>
    simp only [anyEligError, hasEligibilityBlock, eligibilityFlags, List.filter_cons,
      List.any_cons] at *
    by_cases hs : f.flag_scope = FlagScope.eligibility <;>
      by_cases he : f.severity = FlagSeverity.error <;>
      simp [hs, he, ih]

theorem hasEligibilityBlock_iff (flags : List AuditFlag) :
    hasEligibilityBlock flags = true ↔
      ∃ f ∈ flags, f.flag_scope = FlagScope.eligibility ∧
        f.severity = FlagSeverity.error := by
  simp only [hasEligibilityBlock, eligibilityFlags, List.any_eq_true, List.mem_filter,
    decide_eq_true_eq]
  constructor
  · rintro ⟨f, ⟨hf, hs⟩, he⟩
    exact ⟨f, hf, hs, he⟩
  · rintro ⟨f, hf, hs, he⟩
    exact ⟨f, ⟨hf, hs⟩, he⟩

/-! ### C1 -/

/-- C1: for every audit result, if any flag has scope eligibility and
severity error, the claim is blocked: the aggregator returns
amount_under_review = total_billed and fully_covered_amount = 0
regardless of charge-level flags, and the presentation tier displays the
whole bill as the amount under review. -/
theorem C1_eligibility_block (b : Bill) (r : AuditResult)
    (h : ∃ f ∈ r.flags, f.flag_scope = FlagScope.eligibility ∧
      f.severity = FlagSeverity.error) :
    aggregate b r.flags = Except.ok ⟨billTotal b, billTotal b, 0⟩ ∧
    hasEligibilityBlock r.flags = true ∧
    displayedUnderReview r = r.total_billed := by
  have hblock : hasEligibilityBlock r.flags = true := (hasEligibilityBlock_iff r.flags).mpr h
  have hany : anyEligError r.flags = true := by
    rw [anyEligError_eq_hasEligibilityBlock]
    exact hblock
  refine ⟨?_, hblock, ?_⟩
  · simp [aggregate, hany]
  · simp [displayedUnderReview, hblock]

/-- An error-severity eligibility flag, as emitted by the waiting-period
rule. -/
def eligErrorFlag : AuditFlag :=
  ⟨FlagType.WAITING_PERIOD, FlagSeverity.error, FlagScope.eligibility, none, none,
   "Waiting period below policy minimum at time of admission"⟩

/-- A blocked audit result carrying one eligibility-error flag. -/
def blockedResult : AuditResult := ⟨[eligErrorFlag], 123000, 123000, 0, ""⟩

/-- Witness for C1 at a concrete blocked result. -/
theorem C1_eligibility_block_witness :
    displayedUnderReview blockedResult = blockedResult.total_billed :=
  (C1_eligibility_block scenarioABill blockedResult (by decide)).2.2

/-! ### C2 -/

/-- A charge-scope flag of severity info carrying an amount, the shape the
presentation tier itself renders with the Noted status. -/
def infoChargeFlag : AuditFlag :=
  ⟨FlagType.MISC, FlagSeverity.info, FlagScope.charge, some "li1", some 100,
   "Informational note on a specific charge"⟩

/-- An audit result whose only flag is an info-severity charge flag. -/
def infoChargeResult : AuditResult := ⟨[infoChargeFlag], 1000, 0, 1000, ""⟩

/-- C2 counterexample: with an info-severity charge-scope flag carrying
amount_affected 100 and no eligibility block, the code computes a
charge-level deduction total of 100 while the sum over only the
warning/error charge flags is 0, so the displayed payable amount also
differs from total_billed minus that sum. -/
theorem C2_counterexample :
    hasEligibilityBlock infoChargeResult.flags = false ∧
    chargeLevelDeductions infoChargeResult.flags = 100 ∧
    warnErrChargeSum infoChargeResult.flags = 0 ∧
    chargeLevelDeductions infoChargeResult.flags ≠ warnErrChargeSum infoChargeResult.flags ∧
    estimatedPayable infoChargeResult ≠
      infoChargeResult.total_billed - warnErrChargeSum infoChargeResult.flags := by
  decide

/-- C2 amended: the charge-level deduction total sums amount_affected over
all charge-scope flags regardless of severity; when every charge-scope
flag has severity warning or error (as the engine emits), it coincides
with the warning/error sum, the payable amount is total_billed minus that
sum, and whenever the aggregator succeeds without an eligibility block
fully_covered_amount + amount_under_review = total_billed with
fully_covered_amount non-negative. -/
theorem C2_charge_deduction_sum (r : AuditResult)
    (hsev : ∀ f ∈ chargeFlags r.flags,
      f.severity = FlagSeverity.warning ∨ f.severity = FlagSeverity.error) :
    chargeLevelDeductions r.flags = warnErrChargeSum r.flags ∧
    estimatedPayable r = r.total_billed - warnErrChargeSum r.flags ∧
    (∀ (b : Bill) (sm : Summary), aggregate b r.flags = Except.ok sm →
      hasEligibilityBlock r.flags = false →
      sm.fully_covered_amount + sm.amount_under_review = sm.total_billed ∧
      0 ≤ sm.fully_covered_amount ∧
      sm.amount_under_review = warnErrChargeSum r.flags) := by
  have hfilter : (chargeFlags r.flags).filter
      (fun f => decide (f.severity = FlagSeverity.warning ∨ f.severity = FlagSeverity.error))
      = chargeFlags r.flags := by
    apply List.filter_eq_self.mpr
    intro f hf
    simpa using hsev f hf
  have h1 : chargeLevelDeductions r.flags = warnErrChargeSum r.flags := by
    rw [warnErrChargeSum, hfilter]
    rfl
  refine ⟨h1, ?_, ?_⟩
  · rw [estimatedPayable, h1]
  · intro b sm hok hnb
    have hany : anyEligError r.flags = false := by
      rw [anyEligError_eq_hasEligibilityBlock, hnb]
    rw [aggregate] at hok
    simp only [hany, Bool.false_eq_true, if_false] at hok
    by_cases hc : billTotal b - warnErrChargeSum r.flags < 0
    · simp [hc] at hok
    · simp only [hc, if_false] at hok
      have hsm := Except.ok.inj hok
      rw [← hsm]
      refine ⟨by ring, by dsimp only; omega, rfl⟩

/-- A warning-severity charge flag, as emitted by the consumables rule. -/
def warnChargeFlag : AuditFlag :=
  ⟨FlagType.CONSUMABLES, FlagSeverity.warning, FlagScope.charge, some "li-consumables",
   some 8500, "Category is not separately payable under IRDAI guidelines"⟩

/-- An audit result whose only flag is a warning charge flag. -/
def warnOnlyResult : AuditResult := ⟨[warnChargeFlag], 123000, 8500, 114500, ""⟩

/-- Witness for the amended C2 at a concrete result with one warning
charge flag. -/
theorem C2_charge_deduction_sum_witness :
    chargeLevelDeductions warnOnlyResult.flags = warnErrChargeSum warnOnlyResult.flags :=
  (C2_charge_deduction_sum warnOnlyResult (by decide)).1

/-! ### C8 -/

/-- C8: text extraction returns the collaborator text as-is, the empty
string included, and yields an error exactly when the underlying
processing fails; the ingestion layer turns empty text into a structured
no-data-found condition rather than a crash. -/
theorem C8_extract_text (fp k : String) :
    (∀ t : String,
      extract_text_from_document fp k (ExtractionOutcome.success t) = Except.ok t) ∧
    extract_text_from_document fp k (ExtractionOutcome.success "") = Except.ok "" ∧
    (∀ o : ExtractionOutcome,
      (∃ e, extract_text_from_document fp k o = Except.error e) ↔
        ∀ t, o ≠ ExtractionOutcome.success t) ∧
    ingestExtractedText "" = Except.error "no data found" := by
  refine ⟨fun t => rfl, rfl, ?_, rfl⟩
  intro o
  cases o with
  | success t => simp [extract_text_from_document]
  | awsServiceError e => simp [extract_text_from_document]
  | fileNotFound => simp [extract_text_from_document]
  | otherFailure e => simp [extract_text_from_document]

/-- Witness for C8 at a concrete file path with empty extracted text. -/
theorem C8_extract_text_witness :
    extract_text_from_document "bill.pdf" "audits/AUD-1/bill.pdf"
      (ExtractionOutcome.success "") = Except.ok "" :=
  (C8_extract_text "bill.pdf" "audits/AUD-1/bill.pdf").2.1

/-! ### C9 -/

/-- C9: a rejected status request leaves the poll state (currentStep,
error, interval) entirely unchanged so polling resumes on the fixed
2-second interval, and a tick deactivates the interval only on an
observed completed or failed status; unmount cleanup clears it. -/
theorem C9_poll_error_resilient :
    (∀ ps : PollState, pollTick ps PollEvent.requestFailed = ps) ∧
    pollIntervalMs = 2000 ∧
    (∀ (ps : PollState) (e : PollEvent),
      (pollTick ps e).intervalActive = false →
        ps.intervalActive = false ∨ e = PollEvent.statusOk AuditStatus.completed ∨
          e = PollEvent.statusOk AuditStatus.failed) ∧
    (∀ ps : PollState, (unmountCleanup ps).intervalActive = false) := by
  refine ⟨fun ps => rfl, rfl, ?_, fun ps => rfl⟩
  intro ps e h
  cases e with
  | requestFailed => exact Or.inl h
  | statusOk st =>
    cases st with
    | created => exact Or.inl h
    | processing => exact Or.inl h
    | completed => exact Or.inr (Or.inl rfl)
    | failed => exact Or.inr (Or.inr rfl)

/-- Witness for C9: a rejected poll at a concrete mid-progress state. -/
theorem C9_poll_error_resilient_witness :
    pollTick ⟨1, none, true⟩ PollEvent.requestFailed = ⟨1, none, true⟩ :=
  C9_poll_error_resilient.1 ⟨1, none, true⟩

/-! ### C10 -/

/-- C10: finishAudit removes exactly the three audit localStorage keys,
resets auditId and auditResult to none, leaves every other stored key
untouched, and the save effects re-persist nothing afterwards. -/
theorem C10_finish_audit_clears (st : AppState) (store : String → Option String) :
    persistAuditEffects (finishAudit st store).1 (finishAudit st store).2
      = (finishAudit st store).2 ∧
    (finishAudit st store).2 STORAGE_KEYS_AUDIT_ID = none ∧
    (finishAudit st store).2 STORAGE_KEYS_AUDIT_RESULT = none ∧
    (finishAudit st store).2 STORAGE_KEYS_CURRENT_PAGE = none ∧
    (∀ k, k ≠ STORAGE_KEYS_AUDIT_ID → k ≠ STORAGE_KEYS_AUDIT_RESULT →
      k ≠ STORAGE_KEYS_CURRENT_PAGE → (finishAudit st store).2 k = store k) ∧
    (finishAudit st store).1.auditId = none ∧
    (finishAudit st store).1.auditResult = none := by
  refine ⟨rfl, ?_, ?_, ?_, ?_, rfl, rfl⟩
  · show (if STORAGE_KEYS_AUDIT_ID = STORAGE_KEYS_CURRENT_PAGE then none
      else if STORAGE_KEYS_AUDIT_ID = STORAGE_KEYS_AUDIT_RESULT then none
      else if STORAGE_KEYS_AUDIT_ID = STORAGE_KEYS_AUDIT_ID then none
      else store STORAGE_KEYS_AUDIT_ID) = none
    rw [if_neg (by decide), if_neg (by decide), if_pos rfl]
  · show (if STORAGE_KEYS_AUDIT_RESULT = STORAGE_KEYS_CURRENT_PAGE then none
      else if STORAGE_KEYS_AUDIT_RESULT = STORAGE_KEYS_AUDIT_RESULT then none
      else if STORAGE_KEYS_AUDIT_RESULT = STORAGE_KEYS_AUDIT_ID then none
      else store STORAGE_KEYS_AUDIT_RESULT) = none
    rw [if_neg (by decide), if_pos rfl]
  · show (if STORAGE_KEYS_CURRENT_PAGE = STORAGE_KEYS_CURRENT_PAGE then none
      else if STORAGE_KEYS_CURRENT_PAGE = STORAGE_KEYS_AUDIT_RESULT then none
      else if STORAGE_KEYS_CURRENT_PAGE = STORAGE_KEYS_AUDIT_ID then none
      else store STORAGE_KEYS_CURRENT_PAGE) = none
    rw [if_pos rfl]
  · intro k h1 h2 h3
    show (if k = STORAGE_KEYS_CURRENT_PAGE then none
      else if k = STORAGE_KEYS_AUDIT_RESULT then none
      else if k = STORAGE_KEYS_AUDIT_ID then none
      else store k) = store k
    rw [if_neg h3, if_neg h2, if_neg h1]

/-- A concrete App state mid-audit. -/
def sampleAppState : AppState :=
  ⟨"completion", true, none, none, true, some "AUD-1", none⟩

/-- A concrete store holding one unrelated key. -/
def sampleStore : String → Option String :=
  fun k => if k = "theme" then some "light" else none

/-- Witness for C10: an unrelated key survives finishAudit unchanged. -/
theorem C10_finish_audit_clears_witness :
    ("theme" ≠ STORAGE_KEYS_AUDIT_ID) ∧
    (finishAudit sampleAppState sampleStore).2 "theme" = sampleStore "theme" :=
  ⟨by decide, (C10_finish_audit_clears sampleAppState sampleStore).2.2.2.2.1 "theme"
    (by decide) (by decide) (by decide)⟩

/-! ### Coordinator helper lemmas -/

theorem step_terminal (s : CoordState)
    (h : s.status = AuditStatus.completed ∨ s.status = AuditStatus.failed)
    (a : CoordAction) : step s a = s := by
  have h1 : s.status ≠ AuditStatus.created := by rcases h with h | h <;> rw [h] <;> simp
  have h2 : s.status ≠ AuditStatus.processing := by rcases h with h | h <;> rw [h] <;> simp
  cases a <;> simp [step, h1, h2]

theorem foldl_step_terminal (acts : List CoordAction) (s : CoordState)
    (h : s.status = AuditStatus.completed ∨ s.status = AuditStatus.failed) :
    acts.foldl step s = s := by
  induction acts with
  | nil => rfl
  | cons a l ih => rw [List.foldl_cons, step_terminal s h a]; exact ih

theorem WF_initial : WF initialSession := by
  intro h
  simp [initialSession] at h

theorem WF_step (s : CoordState) (hw : WF s) (a : CoordAction) : WF (step s a) := by
  cases a with
  | attachBill =>
    by_cases h : s.status = AuditStatus.created
    · simp only [step, if_pos h]
      intro hc
      have hc2 : s.status = AuditStatus.completed := hc
      rw [h] at hc2
      cases hc2
    · simp only [step, if_neg h]
      exact hw
  | attachPolicy =>
    by_cases h : s.status = AuditStatus.created
    · simp only [step, if_pos h]
      intro hc
      have hc2 : s.status = AuditStatus.completed := hc
      rw [h] at hc2
      cases hc2
    · simp only [step, if_neg h]
      exact hw
  | complete =>
    by_cases h : s.status = AuditStatus.created
    · by_cases hup : (s.bill_uploaded && s.policy_uploaded) = true
      · simp only [step, if_pos h, if_pos hup]
        intro hc
        cases hc
      · simp only [step, if_pos h, if_neg hup]
        exact hw
    · simp only [step, if_neg h]
      exact hw
  | procSucceed b p =>
    by_cases h : s.status = AuditStatus.processing
    · simp only [step, if_pos h]
      cases hagg : aggregate b (evaluate b p) with
      | ok sm =>
        intro _
        exact ⟨rfl, rfl, rfl, rfl⟩
      | error e =>
        intro hc
        cases hc
    · simp only [step, if_neg h]
      exact hw
  | procFail r =>
    by_cases h : s.status = AuditStatus.processing
    · simp only [step, if_pos h]
      intro hc
      cases hc
    · simp only [step, if_neg h]
      exact hw

/-! ### C3 -/

/-- C3: a session in a terminal status (completed or failed) is unchanged
by any sequence of actions, every observable status is one of the four
enumerated ones, and no single step leaves created except into
processing (no transition skips processing). -/
theorem C3_state_machine_safety :
    (∀ (s : CoordState) (acts : List CoordAction),
      (s.status = AuditStatus.completed ∨ s.status = AuditStatus.failed) →
      (acts.foldl step s).status = s.status) ∧
    (∀ st : AuditStatus, st = AuditStatus.created ∨ st = AuditStatus.processing ∨
      st = AuditStatus.completed ∨ st = AuditStatus.failed) ∧
    (∀ (s : CoordState) (a : CoordAction), s.status = AuditStatus.created →
      (step s a).status = AuditStatus.created ∨
        (step s a).status = AuditStatus.processing) := by
  refine ⟨?_, ?_, ?_⟩
  · intro s acts h
    rw [foldl_step_terminal acts s h]
  · intro st
    cases st <;> simp
  · intro s a h
    have h2 : s.status ≠ AuditStatus.processing := by rw [h]; simp
    cases a with
    | attachBill => left; simp [step, h]
    | attachPolicy => left; simp [step, h]
    | complete =>
      by_cases hup : (s.bill_uploaded && s.policy_uploaded) = true
      · right; simp [step, h, hup]
      · left; simp [step, h, hup]
    | procSucceed b p => left; simp [step, h2, h]
    | procFail r => left; simp [step, h2, h]

/-- A session that has already completed. -/
def completedSession : CoordState :=
  ⟨AuditStatus.completed, true, true, 1, 1, none, none, [], none, none, none⟩

/-- Witness for C3: a completed session survives further actions with its
status unchanged. -/
theorem C3_state_machine_safety_witness :
    (List.foldl step completedSession
      [CoordAction.complete, CoordAction.attachBill]).status = completedSession.status :=
  C3_state_machine_safety.1 completedSession
    [CoordAction.complete, CoordAction.attachBill] (Or.inl rfl)

/-! ### C4 -/

/-- C4: triggering completion is idempotent.  From a created session with
both documents attached, the first complete call starts exactly one
evaluation run; the second call returns the state unchanged (flags
included); a complete call on any session not in created is a no-op; and
the subsequent processing outcome persists exactly one result (or none on
failure), after which complete remains a no-op. -/
theorem C4_complete_idempotent (s : CoordState)
    (hst : s.status = AuditStatus.created)
    (hb : s.bill_uploaded = true) (hp : s.policy_uploaded = true) :
    step (step s CoordAction.complete) CoordAction.complete
      = step s CoordAction.complete ∧
    (step s CoordAction.complete).eval_runs = s.eval_runs + 1 ∧
    (step s CoordAction.complete).flags = s.flags ∧
    (∀ t : CoordState, t.status ≠ AuditStatus.created →
      step t CoordAction.complete = t) ∧
    (∀ (b : Bill) (p : Policy),
      step (step (step s CoordAction.complete) (CoordAction.procSucceed b p))
          CoordAction.complete
        = step (step s CoordAction.complete) (CoordAction.procSucceed b p) ∧
      ((step (step s CoordAction.complete) (CoordAction.procSucceed b p)).persist_count
          = s.persist_count + 1 ∧
        (step (step s CoordAction.complete) (CoordAction.procSucceed b p)).status
          = AuditStatus.completed ∨
       (step (step s CoordAction.complete) (CoordAction.procSucceed b p)).persist_count
          = s.persist_count ∧
        (step (step s CoordAction.complete) (CoordAction.procSucceed b p)).status
          = AuditStatus.failed)) := by
  have hnoop : ∀ t : CoordState, t.status ≠ AuditStatus.created →
      step t CoordAction.complete = t := by
    intro t ht
    simp [step, ht]
  have hs1 : step s CoordAction.complete
      = { s with status := AuditStatus.processing, eval_runs := s.eval_runs + 1 } := by
    simp [step, hst, hb, hp]
  refine ⟨?_, ?_, ?_, hnoop, ?_⟩
  · rw [hs1]
    exact hnoop _ (by simp)
  · rw [hs1]
  · rw [hs1]
  · intro b p
    rw [hs1]
    cases hagg : aggregate b (evaluate b p) with
    | ok sm =>
      constructor
      · apply hnoop
        simp [step, hagg]
      · left
        constructor <;> simp [step, hagg]
    | error e =>
      constructor
      · apply hnoop
        simp [step, hagg]
      · right
        constructor <;> simp [step, hagg]

/-- A created session with both documents attached. -/
def readySession : CoordState :=
  ⟨AuditStatus.created, true, true, 0, 0, none, none, [], none, none, none⟩

/-- Witness for C4 at a concrete ready session. -/
theorem C4_complete_idempotent_witness :
    readySession.status = AuditStatus.created ∧
    step (step readySession CoordAction.complete) CoordAction.complete
      = step readySession CoordAction.complete ∧
    (step readySession CoordAction.complete).eval_runs = readySession.eval_runs + 1 :=
  ⟨rfl, (C4_complete_idempotent readySession rfl rfl rfl).1,
    (C4_complete_idempotent readySession rfl rfl rfl).2.1⟩

/-! ### C7 -/

/-- C7: the result query yields a full snapshot exactly when the session
status is completed; for a created or processing session it yields the
structured not-ready response, for a failed session the failed-with-reason
response; and any returned snapshot carries exactly the persisted bill,
policy, flags, summary and dispute letter, never a partial result. -/
theorem C7_result_query (s : CoordState) (hw : WF s) :
    ((∃ snap, getResult s = Except.ok snap) ↔ s.status = AuditStatus.completed) ∧
    (s.status = AuditStatus.created ∨ s.status = AuditStatus.processing →
      getResult s = Except.error ResultError.notReady) ∧
    (s.status = AuditStatus.failed →
      getResult s = Except.error (ResultError.failedWithReason (s.fail_reason.getD ""))) ∧
    (∀ snap, getResult s = Except.ok snap →
      s.bill = some snap.bill ∧ s.policy = some snap.policy ∧ snap.flags = s.flags ∧
      s.summary = some snap.summary ∧ s.letter = some snap.dispute_letter) := by
  cases hs : s.status with
  | created =>
    refine ⟨?_, fun _ => ?_, fun hf => ?_, fun snap hok => ?_⟩
    · simp [getResult, hs]
    · simp [getResult, hs]
    · cases hf
    · simp [getResult, hs] at hok
  | processing =>
    refine ⟨?_, fun _ => ?_, fun hf => ?_, fun snap hok => ?_⟩
    · simp [getResult, hs]
    · simp [getResult, hs]
    · cases hf
    · simp [getResult, hs] at hok
  | completed =>
    obtain ⟨hb, hp, hsm, hl⟩ := hw hs
    obtain ⟨bv, hbv⟩ := Option.isSome_iff_exists.mp hb
    obtain ⟨pv, hpv⟩ := Option.isSome_iff_exists.mp hp
    obtain ⟨smv, hsmv⟩ := Option.isSome_iff_exists.mp hsm
    obtain ⟨lv, hlv⟩ := Option.isSome_iff_exists.mp hl
    have hg : getResult s = Except.ok ⟨bv, pv, s.flags, smv, lv⟩ := by
      simp [getResult, hs, hbv, hpv, hsmv, hlv]
    refine ⟨?_, fun hcp => ?_, fun hf => ?_, fun snap hok => ?_⟩
    · exact ⟨fun _ => rfl, fun _ => ⟨⟨bv, pv, s.flags, smv, lv⟩, hg⟩⟩
    · rcases hcp with hcp | hcp <;> cases hcp
    · cases hf
    · rw [hg] at hok
      have hsnap := Except.ok.inj hok
      rw [← hsnap]
      exact ⟨hbv, hpv, rfl, hsmv, hlv⟩
  | failed =>
    refine ⟨?_, fun hcp => ?_, fun _ => ?_, fun snap hok => ?_⟩
    · simp [getResult, hs]
    · rcases hcp with hcp | hcp <;> cases hcp
    · simp [getResult, hs]
    · simp [getResult, hs] at hok

/-- A session driven from creation through a successful completion on the
sample data. -/
def c7Session : CoordState :=
  List.foldl step initialSession
    [CoordAction.attachBill, CoordAction.attachPolicy, CoordAction.complete,
     CoordAction.procSucceed scenarioABill scenarioAPolicy]

/-- Witness for C7 at a concretely completed session. -/
theorem C7_result_query_witness :
    c7Session.status = AuditStatus.completed ∧
    ((∃ snap, getResult c7Session = Except.ok snap) ↔
      c7Session.status = AuditStatus.completed) :=
  ⟨by decide, (C7_result_query c7Session (by intro h; decide)).1⟩

/-! ### Engine helper lemmas -/

theorem eligibilityRules_fields (p : Policy) :
    ∀ f ∈ eligibilityRules p,
      f.flag_scope = FlagScope.eligibility ∧ f.line_item_id = none := by
  intro f hf
  simp only [eligibilityRules, List.mem_append] at hf
  rcases hf with (hf | hf) | hf <;> split_ifs at hf <;> simp_all

theorem chargeCandidates_fields (p : Policy) (days : Int) (it : LineItem) :
    ∀ f ∈ chargeCandidates p days it,
      f.flag_scope = FlagScope.charge ∧ f.line_item_id = some it.id := by
  intro f hf
  simp only [chargeCandidates, List.mem_append] at hf
  rcases hf with (hf | hf) | hf
  · split_ifs at hf <;> simp_all
  · cases hcap : p.room_rent_limit with
    | none => simp only [hcap] at hf; cases hf
    | some cap =>
      simp only [hcap] at hf
      split_ifs at hf <;> simp_all
  · split_ifs at hf <;> simp_all

theorem pickBest_eq_none {l : List AuditFlag} (h : pickBest l = none) : l = [] := by
  cases l with
  | nil => rfl
  | cons a m =>
    simp only [pickBest] at h
    cases hm : pickBest m with
    | none => rw [hm] at h; cases h
    | some g =>
      rw [hm] at h
      dsimp only at h
      by_cases hlt : sevRank a.severity < sevRank g.severity
      · rw [if_pos hlt] at h; cases h
      · rw [if_neg hlt] at h; cases h

theorem pickBest_mem {l : List AuditFlag} :
    ∀ {f : AuditFlag}, pickBest l = some f → f ∈ l := by
  induction l with
  | nil => intro f h; cases h
  | cons a l ih =>
    intro f h
    simp only [pickBest] at h
    cases hl : pickBest l with
    | none =>
      rw [hl] at h
      cases h
      exact List.mem_cons_self a l
    | some g =>
      rw [hl] at h
      dsimp only at h
      by_cases hlt : sevRank a.severity < sevRank g.severity
      · rw [if_pos hlt] at h
        cases h
        exact List.mem_cons_of_mem a (ih hl)
      · rw [if_neg hlt] at h
        cases h
        exact List.mem_cons_self a l

theorem pickBest_max {l : List AuditFlag} :
    ∀ {f : AuditFlag}, pickBest l = some f →
      ∀ g ∈ l, sevRank g.severity ≤ sevRank f.severity := by
  induction l with
  | nil => intro f h; cases h
  | cons a l ih =>
    intro f h g hg
    simp only [pickBest] at h
    cases hl : pickBest l with
    | none =>
      rw [hl] at h
      cases h
      have hnil := pickBest_eq_none hl
      subst hnil
      rcases List.mem_singleton.mp hg with rfl
      exact le_refl _
    | some gb =>
      rw [hl] at h
      dsimp only at h
      by_cases hlt : sevRank a.severity < sevRank gb.severity
      · rw [if_pos hlt] at h
        cases h
        rcases List.mem_cons.mp hg with rfl | hgl
        · exact le_of_lt hlt
        · exact ih hl _ hgl
      · rw [if_neg hlt] at h
        cases h
        rcases List.mem_cons.mp hg with rfl | hgl
        · exact le_refl _
        · exact le_trans (ih hl _ hgl) (not_lt.mp hlt)

theorem bestChargeFlag_fields (p : Policy) (days : Int) (it : LineItem) (f : AuditFlag)
    (h : bestChargeFlag p days it = some f) :
    f.flag_scope = FlagScope.charge ∧ f.line_item_id = some it.id :=
  chargeCandidates_fields p days it f (pickBest_mem h)

theorem chargeRuleFlags_fields (p : Policy) (b : Bill) :
    ∀ f ∈ chargeRuleFlags p b,
      f.flag_scope = FlagScope.charge ∧
        ∃ it ∈ b.line_items, f.line_item_id = some it.id := by
  intro f hf
  rw [chargeRuleFlags] at hf
  rcases List.mem_filterMap.mp hf with ⟨it, hit, hbest⟩
  obtain ⟨h1, h2⟩ := bestChargeFlag_fields p b.stay_days it f hbest
  exact ⟨h1, it, hit, h2⟩

theorem evaluate_scopes (b : Bill) (p : Policy) :
    eligibilityFlags (evaluate b p) = eligibilityRules p ∧
    chargeFlags (evaluate b p) = chargeRuleFlags p b ∧
    infoFlags (evaluate b p) = [] := by
  have hEelig : ∀ f ∈ eligibilityRules p, f.flag_scope = FlagScope.eligibility :=
    fun f hf => (eligibilityRules_fields p f hf).1
  have hCcharge : ∀ f ∈ chargeRuleFlags p b, f.flag_scope = FlagScope.charge :=
    fun f hf => (chargeRuleFlags_fields p b f hf).1
  refine ⟨?_, ?_, ?_⟩
  · rw [eligibilityFlags, evaluate, informationalRules, List.append_nil,
      List.filter_append]
    rw [List.filter_eq_self.mpr (fun f hf => by simp [hEelig f hf])]
    rw [List.filter_eq_nil_iff.mpr (fun f hf => by simp [hCcharge f hf]), List.append_nil]
  · rw [chargeFlags, evaluate, informationalRules, List.append_nil,
      List.filter_append]
    rw [List.filter_eq_nil_iff.mpr (fun f hf => by simp [hEelig f hf])]
    rw [List.filter_eq_self.mpr (fun f hf => by simp [hCcharge f hf]), List.nil_append]
  · rw [infoFlags, evaluate, informationalRules, List.append_nil,
      List.filter_append]
    rw [List.filter_eq_nil_iff.mpr (fun f hf => by simp [hEelig f hf])]
    rw [List.filter_eq_nil_iff.mpr (fun f hf => by simp [hCcharge f hf]), List.append_nil]

theorem filterMap_map_sublist {α β γ : Type} (f : α → Option β) (g : β → γ) (h : α → γ)
    (H : ∀ a b, f a = some b → g b = h a) :
    ∀ l : List α, List.Sublist ((l.filterMap f).map g) (l.map h) := by
  intro l
  induction l with
  | nil => simp
  | cons a l ih =>
    cases hfa : f a with
    | none =>
      simp only [List.filterMap_cons, hfa, List.map_cons]
      exact List.Sublist.cons (h a) ih
    | some bb =>
      simp only [List.filterMap_cons, hfa, List.map_cons]
      rw [H a bb hfa]
      exact List.Sublist.cons₂ (h a) ih

theorem find_append_of_none {p : AuditFlag → Bool} {l₁ l₂ : List AuditFlag}
    (h : ∀ a ∈ l₁, p a = false) : (l₁ ++ l₂).find? p = l₂.find? p := by
  induction l₁ with
  | nil => rfl
  | cons a l ih =>
    rw [List.cons_append, List.find?_cons_of_neg]
    · exact ih (fun x hx => h x (List.mem_cons_of_mem a hx))
    · simp [h a (List.mem_cons_self a l)]

theorem find_in_nodup_charge :
    ∀ C : List AuditFlag, (C.map AuditFlag.line_item_id).Nodup →
      ∀ f ∈ C, ∀ i : String, f.line_item_id = some i →
        C.find? (fun g => decide (g.line_item_id = some i)) = some f := by
  intro C
  induction C with
  | nil => intro _ f hf; cases hf
  | cons c C ih =>
    intro hnd f hf i hfi
    rw [List.map_cons, List.nodup_cons] at hnd
    obtain ⟨hcn, hnd2⟩ := hnd
    rcases List.mem_cons.mp hf with rfl | hfC
    · rw [List.find?_cons_of_pos]
      simp [hfi]
    · have hci : ¬ (c.line_item_id = some i) := by
        intro hc
        apply hcn
        rw [hc, ← hfi]
        exact List.mem_map_of_mem AuditFlag.line_item_id hfC
      rw [List.find?_cons_of_neg]
      · exact ih hnd2 f hfC i hfi
      · simp [hci]

/-! ### C5 -/

/-- C5: for every bill with distinct line-item identifiers and every
policy, the emitted flags are exactly the eligibility group followed by
the charge group followed by the informational group; the charge flags
follow the line-item order of the bill; each LineItem is referenced by at
most one charge flag (their identifiers are pairwise distinct); the kept
charge flag for an item has maximal severity among the matching rule
candidates, ties broken by rule order; and a first-match lookup of the
whole flag list by line_item_id returns exactly that kept flag. -/
theorem C5_flag_ordering (b : Bill) (p : Policy)
    (hid : (b.line_items.map LineItem.id).Nodup) :
    evaluate b p =
      eligibilityFlags (evaluate b p) ++ chargeFlags (evaluate b p)
        ++ infoFlags (evaluate b p) ∧
    List.Sublist ((chargeFlags (evaluate b p)).map AuditFlag.line_item_id)
      (b.line_items.map (fun it => some it.id)) ∧
    ((chargeFlags (evaluate b p)).map AuditFlag.line_item_id).Nodup ∧
    (∀ it ∈ b.line_items, ∀ f, bestChargeFlag p b.stay_days it = some f →
      f ∈ chargeCandidates p b.stay_days it ∧
      ∀ g ∈ chargeCandidates p b.stay_days it,
        sevRank g.severity ≤ sevRank f.severity) ∧
    (∀ f ∈ chargeFlags (evaluate b p), ∀ i : String, f.line_item_id = some i →
      (evaluate b p).find? (fun g => decide (g.line_item_id = some i)) = some f) := by
  obtain ⟨hE, hC, hI⟩ := evaluate_scopes b p
  have hev : evaluate b p = eligibilityRules p ++ chargeRuleFlags p b := by
    rw [evaluate, informationalRules, List.append_nil]
  have hsub : List.Sublist ((chargeRuleFlags p b).map AuditFlag.line_item_id)
      (b.line_items.map (fun it => some it.id)) := by
    rw [chargeRuleFlags]
    exact filterMap_map_sublist (bestChargeFlag p b.stay_days) AuditFlag.line_item_id
      (fun it => some it.id)
      (fun it f hf => (bestChargeFlag_fields p b.stay_days it f hf).2)
      b.line_items
  have hmapnd : (b.line_items.map (fun it => some it.id)).Nodup := by
    have hmm : b.line_items.map (fun it => some it.id)
        = (b.line_items.map LineItem.id).map Option.some := by
      rw [List.map_map]
      rfl
    rw [hmm]
    exact hid.map (Option.some_injective String)
  have hnd : ((chargeRuleFlags p b).map AuditFlag.line_item_id).Nodup :=
    List.Nodup.sublist hsub hmapnd
  refine ⟨?_, ?_, ?_, ?_, ?_⟩
  · rw [hE, hC, hI, List.append_nil, hev]
  · rw [hC]
    exact hsub
  · rw [hC]
    exact hnd
  · intro it _ f hf
    exact ⟨pickBest_mem hf, pickBest_max hf⟩
  · intro f hf i hfi
    rw [hC] at hf
    rw [hev, find_append_of_none
      (fun g hg => by simp [(eligibilityRules_fields p g hg).2])]
    exact find_in_nodup_charge (chargeRuleFlags p b) hnd f hf i hfi

/-- Witness for C5 on the sample bill, whose line-item identifiers are
pairwise distinct. -/
theorem C5_flag_ordering_witness :
    (scenarioABill.line_items.map LineItem.id).Nodup ∧
    evaluate scenarioABill scenarioAPolicy =
      eligibilityFlags (evaluate scenarioABill scenarioAPolicy)
        ++ chargeFlags (evaluate scenarioABill scenarioAPolicy)
        ++ infoFlags (evaluate scenarioABill scenarioAPolicy) :=
  ⟨by decide, (C5_flag_ordering scenarioABill scenarioAPolicy (by decide)).1⟩

/-! ### C6 -/

/-- C6: on the Scenario A sample bill the engine emits exactly two
charge-scope warning flags, Consumables with amount_affected 8500 and
Service Charges with amount_affected 4000 (the capped room rent of 24000
over 3 days does not exceed 8000 per day), and the aggregator reports
total_billed 123000, amount_under_review 12500, fully_covered_amount
110500. -/
theorem C6_scenarioA :
    evaluate scenarioABill scenarioAPolicy =
      [⟨FlagType.CONSUMABLES, FlagSeverity.warning, FlagScope.charge,
        some "li-consumables", some 8500,
        "Category is not separately payable under IRDAI guidelines"⟩,
       ⟨FlagType.NON_MEDICAL, FlagSeverity.warning, FlagScope.charge,
        some "li-service", some 4000,
        "Category is not separately payable under IRDAI guidelines"⟩] ∧
    billTotal scenarioABill = 123000 ∧
    aggregate scenarioABill (evaluate scenarioABill scenarioAPolicy) =
      Except.ok ⟨123000, 12500, 110500⟩ := by
  refine ⟨?_, ?_, ?_⟩ <;> rfl
